import Mathlib

/-!
Shallow embedding of the mob-maps voting core: the vote ledger, the vote-count
projector (`_vote_count_trigger`), the ownership resolver (`_recalc_spot_owner`),
the atomic `cast_vote` RPC, the `toggleVote` client helper, the leaderboard
function `get_leaderboard`, invite-code generation and mob membership
(`joinMob`).  Tables are embedded as lists of rows; uuid columns are embedded as
natural numbers; `timestamptz` columns as natural numbers; nullable columns as
`Option`.  Triggers are applied explicitly at each DML statement, in the order
PostgreSQL fires them.
-/

/-- One row of the vote ledger (table public.votes): (id, clip_id, user_id);
the UNIQUE (clip_id, user_id) constraint is enforced by the mutation paths. -/
structure Vote where
  id : Nat
  clip_id : Nat
  user_id : Nat
  deriving Repr, DecidableEq

/-- One row of table public.clips: id, spot_id, uploader user_id, the projected
vote_count (nullable int, DEFAULT 0) and created_at. -/
structure Clip where
  id : Nat
  spot_id : Nat
  user_id : Nat
  vote_count : Option Int
  created_at : Nat
  deriving Repr, DecidableEq

/-- One row of table public.spots, restricted to the columns the voting core
touches: id and the derived owner_user_id (nullable). -/
structure Spot where
  id : Nat
  owner_user_id : Option Nat
  deriving Repr, DecidableEq

/-- The transactional state seen by the voting core: spots, clips and the vote
ledger, plus a fresh-id source standing for uuid generation on vote insert. -/
structure DB where
  spots : List Spot
  clips : List Clip
  votes : List Vote
  nextVoteId : Nat
  deriving Repr, DecidableEq

/-- SELECT * FROM clips WHERE id = cid (primary-key lookup). -/
def findClip (clips : List Clip) (cid : Nat) : Option Clip :=
  clips.find? (fun c => c.id == cid)

/-- SELECT * FROM spots WHERE id = sid (primary-key lookup). -/
def findSpot (spots : List Spot) (sid : Nat) : Option Spot :=
  spots.find? (fun s => s.id == sid)

/-- UPDATE clips SET vote_count = f(vote_count) WHERE id = cid. -/
def updateClipCount (clips : List Clip) (cid : Nat) (f : Option Int → Option Int) :
    List Clip :=
  clips.map (fun c => if c.id == cid then { c with vote_count := f c.vote_count } else c)

/-- The INSERT branch of _vote_count_trigger:
vote_count := COALESCE(vote_count, 0) + 1. -/
def vote_count_trigger_insert (c : Option Int) : Option Int :=
  some (c.getD 0 + 1)

/-- The DELETE branch of _vote_count_trigger:
vote_count := GREATEST(COALESCE(vote_count, 0) - 1, 0). -/
def vote_count_trigger_delete (c : Option Int) : Option Int :=
  some (max (c.getD 0 - 1) 0)

/-- Sort key for vote_count under ORDER BY vote_count DESC: PostgreSQL places
NULL first in a descending order, i.e. NULL sorts as the largest value. -/
def countKey (c : Clip) : WithTop Int :=
  match c.vote_count with
  | none => ⊤
  | some n => (n : WithTop Int)

/-- Clip a strictly precedes clip b under ORDER BY vote_count DESC,
created_at ASC. -/
def clipBefore (a b : Clip) : Prop :=
  countKey b < countKey a ∨ (countKey a = countKey b ∧ a.created_at < b.created_at)

instance : DecidableRel clipBefore := fun a b => by
  unfold clipBefore; infer_instance

/-- SELECT * FROM clips WHERE spot_id = sid. -/
def spotClips (clips : List Clip) (sid : Nat) : List Clip :=
  clips.filter (fun c => c.spot_id == sid)

/-- ORDER BY vote_count DESC, created_at ASC LIMIT 1 over a list of clips;
among rows whose sort keys tie exactly, the row that comes first in the list is
returned (the SQL result is unspecified there, so one fixed choice is modelled). -/
def best1 : List Clip → Option Clip
  | [] => none
  | c :: rest =>
    match best1 rest with
    | none => some c
    | some b => if clipBefore b c then some b else some c

/-- The clip selected by the subquery of _recalc_spot_owner for a spot. -/
def bestClip (clips : List Clip) (sid : Nat) : Option Clip :=
  best1 (spotClips clips sid)

/-- The UPDATE of _recalc_spot_owner: set the spot's owner_user_id to the
uploader of its highest-ranked clip, or NULL when the spot has no clips. -/
def recalc_spot_owner (db : DB) (sid : Nat) : DB :=
  { db with
    spots := db.spots.map (fun s =>
      if s.id == sid then
        { s with owner_user_id := (bestClip db.clips sid).map (fun c => c.user_id) }
      else s) }

/-- Fire _vote_count_trigger (INSERT) on clip cid, then the cascaded
trg_clips_vote_update trigger (_recalc_spot_owner) on the clip's spot. -/
def applyVoteInsertTriggers (db : DB) (cid : Nat) : DB :=
  let clips := updateClipCount db.clips cid vote_count_trigger_insert
  let db1 := { db with clips := clips }
  match findClip clips cid with
  | some c => recalc_spot_owner db1 c.spot_id
  | none => db1

/-- Fire _vote_count_trigger (DELETE) on clip cid, then the cascaded
trg_clips_vote_update trigger (_recalc_spot_owner) on the clip's spot. -/
def applyVoteDeleteTriggers (db : DB) (cid : Nat) : DB :=
  let clips := updateClipCount db.clips cid vote_count_trigger_delete
  let db1 := { db with clips := clips }
  match findClip clips cid with
  | some c => recalc_spot_owner db1 c.spot_id
  | none => db1

/-- Whether the ledger holds a row for the pair (clip_id, user_id) — the
predicate behind the UNIQUE (clip_id, user_id) constraint. -/
def hasVote (votes : List Vote) (cid uid : Nat) : Bool :=
  votes.any (fun v => v.clip_id == cid && v.user_id == uid)

/-- INSERT INTO votes (clip_id, user_id) VALUES (cid, uid) with no conflict
clause: append a fresh row and fire the vote-count trigger.  The callers below
only reach this after establishing that no (cid, uid) row exists. -/
def insertVoteRaw (db : DB) (cid uid : Nat) : DB :=
  let v : Vote := ⟨db.nextVoteId, cid, uid⟩
  let db1 := { db with votes := db.votes ++ [v], nextVoteId := db.nextVoteId + 1 }
  applyVoteInsertTriggers db1 cid

/-- INSERT INTO votes (clip_id, user_id) VALUES (cid, uid)
ON CONFLICT (clip_id, user_id) DO NOTHING. -/
def insertVoteOnConflictDoNothing (db : DB) (cid uid : Nat) : DB :=
  if hasVote db.votes cid uid then db else insertVoteRaw db cid uid

/-- DELETE FROM votes WHERE id = vid: remove the row (vote ids are the primary
key) and fire the vote-count trigger for the deleted row's clip. -/
def deleteVoteById (db : DB) (vid : Nat) : DB :=
  match db.votes.find? (fun v => v.id == vid) with
  | none => db
  | some v =>
    let db1 := { db with votes := db.votes.filter (fun w => w.id != vid) }
    applyVoteDeleteTriggers db1 v.clip_id

/-- SELECT vote_count FROM clips WHERE id = cid, as read back by cast_vote. -/
def currentCount (db : DB) (cid : Nat) : Option Int :=
  (findClip db.clips cid).bind (fun c => c.vote_count)

/-- The errors cast_vote can raise: RAISE EXCEPTION for a missing caller
identity or a missing target clip. -/
inductive VoteError where
  | notAuthenticated
  | invalidClip
  deriving Repr, DecidableEq

/-- The row returned by cast_vote: (action, voted_clip_id, new_vote_count). -/
structure CastVoteResult where
  action : String
  voted_clip_id : Nat
  new_vote_count : Option Int
  deriving Repr, DecidableEq

/-- The join condition of cast_vote's existing-vote lookup: clip cid exists and
belongs to spot sid. -/
def inSpot (clips : List Clip) (cid sid : Nat) : Bool :=
  match findClip clips cid with
  | some c => c.spot_id == sid
  | none => false

/-- The WHERE clause of cast_vote's existing-vote lookup, as a predicate on
ledger rows: the row is uid's and its clip belongs to spot sid. -/
def votePred (clips : List Clip) (uid sid : Nat) (v : Vote) : Bool :=
  v.user_id == uid && inSpot clips v.clip_id sid

/-- SELECT v.id, v.clip_id FROM votes v JOIN clips c ON c.id = v.clip_id
WHERE v.user_id = uid AND c.spot_id = sid LIMIT 1. -/
def findExistingVote (db : DB) (uid sid : Nat) : Option Vote :=
  db.votes.find? (votePred db.clips uid sid)

/-- The cast_vote RPC from complete_schema_fixed.sql: resolve the target clip's
spot, look up the caller's existing vote anywhere on that spot, then toggle off,
move, or add, returning the action and the target clip's vote_count re-read
after the mutation. -/
def cast_vote (db : DB) (auth_uid : Option Nat) (target_clip_id : Nat) :
    Except VoteError (DB × CastVoteResult) :=
  match auth_uid with
  | none => .error .notAuthenticated
  | some current_user_id =>
    match findClip db.clips target_clip_id with
    | none => .error .invalidClip
    | some target_clip =>
      let target_spot_id := target_clip.spot_id
      match findExistingVote db current_user_id target_spot_id with
      | some existing_vote =>
        if existing_vote.clip_id == target_clip_id then
          let db1 := deleteVoteById db existing_vote.id
          .ok (db1, ⟨"removed", target_clip_id, currentCount db1 target_clip_id⟩)
        else
          let db1 := deleteVoteById db existing_vote.id
          let db2 := insertVoteOnConflictDoNothing db1 target_clip_id current_user_id
          .ok (db2, ⟨"moved", target_clip_id, currentCount db2 target_clip_id⟩)
      | none =>
        let db1 := insertVoteOnConflictDoNothing db target_clip_id current_user_id
        .ok (db1, ⟨"added", target_clip_id, currentCount db1 target_clip_id⟩)

/-- The result value of the toggleVote helper in src/utils/voting.ts. -/
structure ToggleVoteResult where
  success : Bool
  newVoteCount : Option Int
  deriving Repr, DecidableEq

/-- The toggleVote function from src/utils/voting.ts: check for the caller's
vote on this one clip only; delete it if present, otherwise insert a new vote;
then re-read the clip's vote_count.  No territory-wide lookup is performed. -/
def toggleVote (db : DB) (auth_uid : Option Nat) (clipId : Nat) :
    DB × ToggleVoteResult :=
  match auth_uid with
  | none => (db, ⟨false, none⟩)
  | some uid =>
    match db.votes.find? (fun v => v.clip_id == clipId && v.user_id == uid) with
    | some existingVote =>
      let db1 := deleteVoteById db existingVote.id
      (db1, ⟨true, currentCount db1 clipId⟩)
    | none =>
      let db1 := insertVoteRaw db clipId uid
      (db1, ⟨true, currentCount db1 clipId⟩)

/-- The votes user uid holds on clips of spot sid — the quantity the
one-vote-per-territory invariant bounds. -/
def userSpotVotes (db : DB) (uid sid : Nat) : List Vote :=
  db.votes.filter (votePred db.clips uid sid)

/-- Run one cast_vote call, keeping the pre-state when the call errors. -/
def castVoteStep (db : DB) (req : Option Nat × Nat) : DB :=
  match cast_vote db req.1 req.2 with
  | .ok (db1, _) => db1
  | .error _ => db

/-- Run a finite sequence of cast_vote calls. -/
def runCastVotes (db : DB) (reqs : List (Option Nat × Nat)) : DB :=
  reqs.foldl castVoteStep db

/-- One row of table public.profiles, restricted to the columns get_leaderboard
reads: id, the nullable username (handle), display_name and avatar_url. -/
structure Profile where
  id : Nat
  username : Option String
  display_name : Option String
  avatar_url : Option String
  deriving Repr, DecidableEq

/-- COUNT(s.id) of the LEFT JOIN public.spots s ON s.owner_user_id = p.id for
one profile: the number of spots the profile currently owns. -/
def spots_owned (spots : List Spot) (pid : Nat) : Nat :=
  (spots.filter (fun s => s.owner_user_id == some pid)).length

/-- One output row of get_leaderboard: the grouped profile columns together
with its spots_owned aggregate. -/
structure LBEntry where
  profile : Profile
  spots_owned : Nat
  deriving Repr, DecidableEq

/-- The secondary sort key of get_leaderboard in complete_schema_fixed.sql:
COALESCE(p.username, p.display_name, p.id::text). -/
def lbKey (p : Profile) : String :=
  p.username.getD (p.display_name.getD (toString p.id))

/-- Row a sorts at-or-before row b under
ORDER BY spots_owned DESC, COALESCE(p.username, p.display_name, p.id::text) ASC. -/
def lbLE (a b : LBEntry) : Prop :=
  b.spots_owned < a.spots_owned ∨
    (a.spots_owned = b.spots_owned ∧ lbKey a.profile ≤ lbKey b.profile)

instance : DecidableRel lbLE := fun a b => by
  unfold lbLE; infer_instance

instance : IsTotal LBEntry lbLE where
  total a b := by
    unfold lbLE
    rcases lt_trichotomy a.spots_owned b.spots_owned with h | h | h
    · exact Or.inr (Or.inl h)
    · rcases le_total (lbKey a.profile) (lbKey b.profile) with hk | hk
      · exact Or.inl (Or.inr ⟨h, hk⟩)
      · exact Or.inr (Or.inr ⟨h.symm, hk⟩)
    · exact Or.inl (Or.inl h)

instance : IsTrans LBEntry lbLE where
  trans a b c hab hbc := by
    unfold lbLE at *
    rcases hab with h1 | ⟨h1, k1⟩
    · rcases hbc with h2 | ⟨h2, _⟩
      · exact Or.inl (h2.trans h1)
      · exact Or.inl (h2 ▸ h1)
    · rcases hbc with h2 | ⟨h2, k2⟩
      · exact Or.inl (h1 ▸ h2)
      · exact Or.inr ⟨h1.trans h2, k1.trans k2⟩

/-- The grouped-and-filtered rows of get_leaderboard before ordering: one row
per profile owning at least one spot (HAVING COUNT(s.id) > 0), carrying its
owned-spot count. -/
def leaderboardRows (profiles : List Profile) (spots : List Spot) : List LBEntry :=
  profiles.filterMap (fun p =>
    let n := spots_owned spots p.id
    if n > 0 then some (⟨p, n⟩ : LBEntry) else none)

/-- The get_leaderboard function of complete_schema_fixed.sql: the qualifying
rows ordered by spots_owned DESC then the COALESCE fallback key ASC, truncated
to limit_count rows. -/
def get_leaderboard (profiles : List Profile) (spots : List Spot)
    (limit_count : Nat) : List LBEntry :=
  ((leaderboardRows profiles spots).insertionSort lbLE).take limit_count

/-- Row ordering of the get_leaderboard variant in
missing_functions_and_tables.sql: ORDER BY spots_owned DESC, p.username ASC,
where PostgreSQL places NULL usernames last in an ascending order. -/
def usernameKeyLE (a b : Option String) : Bool :=
  match a, b with
  | some x, some y => decide (x ≤ y)
  | some _, none => true
  | none, some _ => false
  | none, none => true

def lbLEUsername (a b : LBEntry) : Prop :=
  b.spots_owned < a.spots_owned ∨
    (a.spots_owned = b.spots_owned ∧
      usernameKeyLE a.profile.username b.profile.username = true)

instance : DecidableRel lbLEUsername := fun a b => by
  unfold lbLEUsername; infer_instance

/-- The get_leaderboard variant of missing_functions_and_tables.sql: same
qualifying rows and counts as the fixed-schema version, ordered by spots_owned
DESC then username ASC with NULL usernames last. -/
def get_leaderboard_username_asc (profiles : List Profile) (spots : List Spot)
    (limit_count : Nat) : List LBEntry :=
  ((leaderboardRows profiles spots).insertionSort lbLEUsername).take limit_count

/-- The generate_invite_code function of complete_schema_fixed.sql:
RETURN upper(substr(md5(random()::text), 1, 6)).  The random md5 pipeline is
abstracted as a stream rand of candidate codes; each candidate the pipeline can
produce is a 6-character string (the first six hex digits, uppercased) and this
version returns the first candidate with no uniqueness check. -/
def generate_invite_code (rand : Nat → String) : String :=
  rand 0

/-- The generate_invite_code function of missing_functions_and_tables.sql: loop
generating candidates, checking COUNT(*) FROM mobs WHERE invite_code = code,
and returning the first candidate no existing mob uses.  The unbounded LOOP is
embedded with explicit fuel; i indexes the candidate stream. -/
def generate_invite_code_checked (existing : List String) (rand : Nat → String) :
    Nat → Nat → Option String
  | _, 0 => none
  | i, fuel + 1 =>
    let code := rand i
    if existing.contains code then
      generate_invite_code_checked existing rand (i + 1) fuel
    else
      some code

/-- One row of table public.mobs, restricted to the columns joinMob reads. -/
structure Mob where
  id : Nat
  invite_code : String
  deriving Repr, DecidableEq

/-- One row of table public.mob_members; the table carries
UNIQUE (mob_id, user_id). -/
structure MobMember where
  mob_id : Nat
  user_id : Nat
  deriving Repr, DecidableEq

/-- The failures of the joinMob flow in MyMobScreen.tsx: no authenticated user,
no mob matching the invite code, or the unique-violation branch (error code
23505) surfaced as the already-a-member alert. -/
inductive JoinError where
  | notAuthenticated
  | invalidInviteCode
  | alreadyMember
  deriving Repr, DecidableEq

/-- The inviteCode.trim().toUpperCase() normalization of joinMob, embedded at
the character-list level: strip whitespace from both ends, then uppercase every
character. -/
def trimToUpper (s : String) : String :=
  ⟨(((s.data.dropWhile Char.isWhitespace).reverse.dropWhile
      Char.isWhitespace).reverse).map Char.toUpper⟩

/-- The joinMob function of MyMobScreen.tsx: look up the mob whose invite_code
equals the trimmed, uppercased input; fail if none; insert (mob_id, user_id)
into mob_members, where a duplicate of the UNIQUE (mob_id, user_id) pair — and
only that — raises 23505, surfaced as the already-in-a-mob failure. -/
def joinMob (mobs : List Mob) (members : List MobMember) (auth_uid : Option Nat)
    (inviteCode : String) : Except JoinError (List MobMember × Mob) :=
  match auth_uid with
  | none => .error .notAuthenticated
  | some uid =>
    let code := trimToUpper inviteCode
    match mobs.find? (fun m => m.invite_code == code) with
    | none => .error .invalidInviteCode
    | some m =>
      if members.any (fun mm => mm.mob_id == m.id && mm.user_id == uid) then
        .error .alreadyMember
      else
        .ok (members ++ [⟨m.id, uid⟩], m)

/-- The mobs a user belongs to — the quantity the one-team-per-user constraint
is supposed to bound. -/
def userMemberships (members : List MobMember) (uid : Nat) : List MobMember :=
  members.filter (fun mm => mm.user_id == uid)

/-- A concrete spot with two clips, no votes: clip 10 (uploader 2, created 0)
and clip 11 (uploader 3, created 5), both with vote_count 0. -/
def dbA : DB :=
  { spots := [⟨1, none⟩]
  , clips := [⟨10, 1, 2, some 0, 0⟩, ⟨11, 1, 3, some 0, 5⟩]
  , votes := []
  , nextVoteId := 100 }

/-- The same spot after user 7 has voted for clip 10. -/
def dbB : DB :=
  { spots := [⟨1, some 2⟩]
  , clips := [⟨10, 1, 2, some 1, 0⟩, ⟨11, 1, 3, some 0, 5⟩]
  , votes := [⟨100, 10, 7⟩]
  , nextVoteId := 101 }

/-- The same spot in a corrupted state in which user 7 holds votes on both of
its clips — the state the ledger alone cannot rule out. -/
def dbC : DB :=
  { spots := [⟨1, some 2⟩]
  , clips := [⟨10, 1, 2, some 1, 0⟩, ⟨11, 1, 3, some 1, 5⟩]
  , votes := [⟨100, 10, 7⟩, ⟨101, 11, 7⟩]
  , nextVoteId := 102 }

/-- Two profiles: user 1 has no username (handle) but a display name that sorts
early; user 2 has a username that sorts late. -/
def profilesA : List Profile :=
  [⟨1, none, some "a", none⟩, ⟨2, some "z", none, none⟩]

/-- Two spots, one owned by each of the two profiles above. -/
def spotsA : List Spot :=
  [⟨5, some 1⟩, ⟨6, some 2⟩]

/-- Two mobs with distinct invite codes. -/
def mobsA : List Mob :=
  [⟨1, "AAAAAA"⟩, ⟨2, "BBBBBB"⟩]

/-- User 7 is already a member of mob 1. -/
def membersA : List MobMember :=
  [⟨1, 7⟩]

/-- A candidate-code stream whose first candidate collides with an existing
code and whose second does not. -/
def randA : Nat → String :=
  fun j => if j = 0 then "ABC123" else "DEF456"

/-! Structural lemmas about the embedded DML statements. -/

theorem recalc_spot_owner_clips (db : DB) (sid : Nat) :
    (recalc_spot_owner db sid).clips = db.clips := rfl

theorem recalc_spot_owner_votes (db : DB) (sid : Nat) :
    (recalc_spot_owner db sid).votes = db.votes := rfl

theorem recalc_spot_owner_nextVoteId (db : DB) (sid : Nat) :
    (recalc_spot_owner db sid).nextVoteId = db.nextVoteId := rfl

theorem applyVoteInsertTriggers_clips (db : DB) (cid : Nat) :
    (applyVoteInsertTriggers db cid).clips =
      updateClipCount db.clips cid vote_count_trigger_insert := by
  unfold applyVoteInsertTriggers
  dsimp only
  split <;> rfl

theorem applyVoteInsertTriggers_votes (db : DB) (cid : Nat) :
    (applyVoteInsertTriggers db cid).votes = db.votes := by
  unfold applyVoteInsertTriggers
  dsimp only
  split <;> rfl

theorem applyVoteInsertTriggers_nextVoteId (db : DB) (cid : Nat) :
    (applyVoteInsertTriggers db cid).nextVoteId = db.nextVoteId := by
  unfold applyVoteInsertTriggers
  dsimp only
  split <;> rfl

theorem applyVoteDeleteTriggers_clips (db : DB) (cid : Nat) :
    (applyVoteDeleteTriggers db cid).clips =
      updateClipCount db.clips cid vote_count_trigger_delete := by
  unfold applyVoteDeleteTriggers
  dsimp only
  split <;> rfl

theorem applyVoteDeleteTriggers_votes (db : DB) (cid : Nat) :
    (applyVoteDeleteTriggers db cid).votes = db.votes := by
  unfold applyVoteDeleteTriggers
  dsimp only
  split <;> rfl

theorem applyVoteDeleteTriggers_nextVoteId (db : DB) (cid : Nat) :
    (applyVoteDeleteTriggers db cid).nextVoteId = db.nextVoteId := by
  unfold applyVoteDeleteTriggers
  dsimp only
  split <;> rfl

theorem insertVoteRaw_votes (db : DB) (cid uid : Nat) :
    (insertVoteRaw db cid uid).votes = db.votes ++ [⟨db.nextVoteId, cid, uid⟩] := by
  unfold insertVoteRaw
  rw [applyVoteInsertTriggers_votes]

theorem insertVoteRaw_clips (db : DB) (cid uid : Nat) :
    (insertVoteRaw db cid uid).clips =
      updateClipCount db.clips cid vote_count_trigger_insert := by
  unfold insertVoteRaw
  rw [applyVoteInsertTriggers_clips]

theorem insertVoteRaw_nextVoteId (db : DB) (cid uid : Nat) :
    (insertVoteRaw db cid uid).nextVoteId = db.nextVoteId + 1 := by
  unfold insertVoteRaw
  rw [applyVoteInsertTriggers_nextVoteId]

theorem findClip_updateClipCount (clips : List Clip) (cid cid0 : Nat)
    (f : Option Int → Option Int) :
    findClip (updateClipCount clips cid0 f) cid =
      (findClip clips cid).map
        (fun c => if c.id == cid0 then { c with vote_count := f c.vote_count } else c) := by
  unfold findClip updateClipCount
  rw [List.find?_map]
  have hfg : ((fun c : Clip => c.id == cid) ∘
      (fun c => if c.id == cid0 then { c with vote_count := f c.vote_count } else c)) =
      fun c : Clip => c.id == cid := by
    funext c
    show ((if c.id == cid0 then { c with vote_count := f c.vote_count } else c).id == cid) =
      (c.id == cid)
    split <;> rfl
  rw [hfg]

theorem findClip_updateClipCount_self (clips : List Clip) (cid : Nat)
    (f : Option Int → Option Int) :
    findClip (updateClipCount clips cid f) cid =
      (findClip clips cid).map (fun c => { c with vote_count := f c.vote_count }) := by
  rw [findClip_updateClipCount]
  cases hfc : findClip clips cid with
  | none => rfl
  | some c =>
    unfold findClip at hfc
    have hc := List.find?_some hfc
    simp only at hc
    simp [hc]
    intro h1
    exact absurd (beq_iff_eq.mp hc) h1

theorem findClip_updateClipCount_ne (clips : List Clip) (cid cid0 : Nat)
    (f : Option Int → Option Int) (h : cid ≠ cid0) :
    findClip (updateClipCount clips cid0 f) cid = findClip clips cid := by
  rw [findClip_updateClipCount]
  cases hfc : findClip clips cid with
  | none => rfl
  | some c =>
    unfold findClip at hfc
    have hc0 := List.find?_some hfc
    simp only at hc0
    have hc : c.id = cid := beq_iff_eq.mp hc0
    have hb : (c.id == cid0) = false := beq_false_of_ne (by rw [hc]; exact h)
    simp [hb]
    intro h1
    exact absurd h1 (beq_eq_false_iff_ne.mp hb)

theorem inSpot_updateClipCount (clips : List Clip) (c0 : Nat)
    (f : Option Int → Option Int) (cid sid : Nat) :
    inSpot (updateClipCount clips c0 f) cid sid = inSpot clips cid sid := by
  unfold inSpot
  rw [findClip_updateClipCount]
  cases findClip clips cid with
  | none => rfl
  | some c =>
    show ((if c.id == c0 then { c with vote_count := f c.vote_count } else c).spot_id == sid) =
      (c.spot_id == sid)
    split <;> rfl

theorem votePred_updateClipCount (clips : List Clip) (c0 : Nat)
    (f : Option Int → Option Int) (uid sid : Nat) (v : Vote) :
    votePred (updateClipCount clips c0 f) uid sid v = votePred clips uid sid v := by
  unfold votePred
  rw [inSpot_updateClipCount]

theorem votePred_updateClipCount_funext (clips : List Clip) (c0 : Nat)
    (f : Option Int → Option Int) (uid sid : Nat) :
    votePred (updateClipCount clips c0 f) uid sid = votePred clips uid sid :=
  funext (fun v => votePred_updateClipCount clips c0 f uid sid v)

theorem userSpotVotes_insertVoteRaw (db : DB) (cid uid u t : Nat) :
    userSpotVotes (insertVoteRaw db cid uid) u t =
      userSpotVotes db u t ++
        List.filter (votePred db.clips u t) [⟨db.nextVoteId, cid, uid⟩] := by
  unfold userSpotVotes
  rw [insertVoteRaw_votes, insertVoteRaw_clips, votePred_updateClipCount_funext,
    List.filter_append]

theorem deleteVoteById_of_none (db : DB) (vid : Nat)
    (h : db.votes.find? (fun v => v.id == vid) = none) :
    deleteVoteById db vid = db := by
  unfold deleteVoteById
  rw [h]

theorem deleteVoteById_votes (db : DB) (vid : Nat) (v : Vote)
    (h : db.votes.find? (fun w => w.id == vid) = some v) :
    (deleteVoteById db vid).votes = db.votes.filter (fun w => w.id != vid) := by
  unfold deleteVoteById
  rw [h]
  exact applyVoteDeleteTriggers_votes _ _

theorem deleteVoteById_clips (db : DB) (vid : Nat) (v : Vote)
    (h : db.votes.find? (fun w => w.id == vid) = some v) :
    (deleteVoteById db vid).clips =
      updateClipCount db.clips v.clip_id vote_count_trigger_delete := by
  unfold deleteVoteById
  rw [h]
  exact applyVoteDeleteTriggers_clips _ _

theorem deleteVoteById_nextVoteId (db : DB) (vid : Nat) :
    (deleteVoteById db vid).nextVoteId = db.nextVoteId := by
  unfold deleteVoteById
  cases h : db.votes.find? (fun w => w.id == vid) with
  | none => rfl
  | some v => exact applyVoteDeleteTriggers_nextVoteId _ _

theorem userSpotVotes_deleteVoteById (db : DB) (vid : Nat) (v : Vote) (u t : Nat)
    (h : db.votes.find? (fun w => w.id == vid) = some v) :
    userSpotVotes (deleteVoteById db vid) u t =
      (userSpotVotes db u t).filter (fun w => w.id != vid) := by
  unfold userSpotVotes
  rw [deleteVoteById_votes db vid v h, deleteVoteById_clips db vid v h,
    votePred_updateClipCount_funext, List.filter_filter, List.filter_filter]
  apply List.filter_congr
  intro w _
  exact Bool.and_comm _ _

theorem findExistingVote_eq_none_iff (db : DB) (uid sid : Nat) :
    findExistingVote db uid sid = none ↔ userSpotVotes db uid sid = [] := by
  unfold findExistingVote userSpotVotes
  rw [List.find?_eq_none, List.filter_eq_nil_iff]

theorem findExistingVote_mem (db : DB) (uid sid : Nat) (v : Vote)
    (h : findExistingVote db uid sid = some v) : v ∈ userSpotVotes db uid sid := by
  unfold findExistingVote at h
  unfold userSpotVotes
  exact List.mem_filter.mpr ⟨List.mem_of_find?_eq_some h, List.find?_some h⟩

theorem votePred_of_mem_userSpotVotes (db : DB) (uid sid : Nat) (v : Vote)
    (h : v ∈ userSpotVotes db uid sid) : votePred db.clips uid sid v = true :=
  (List.mem_filter.mp h).2

theorem eq_singleton_of_length_le_one {α : Type} {l : List α} {x : α}
    (h : l.length ≤ 1) (hx : x ∈ l) : l = [x] := by
  cases l with
  | nil => cases hx
  | cons a t =>
    cases t with
    | nil =>
      cases hx with
      | head => rfl
      | tail _ hmem => cases hmem
    | cons b t2 => simp at h

theorem hasVote_iff_exists (votes : List Vote) (cid uid : Nat) :
    hasVote votes cid uid = true ↔
      ∃ v ∈ votes, v.clip_id = cid ∧ v.user_id = uid := by
  unfold hasVote
  rw [List.any_eq_true]
  constructor
  · rintro ⟨v, hv, hp⟩
    rw [Bool.and_eq_true, beq_iff_eq, beq_iff_eq] at hp
    exact ⟨v, hv, hp⟩
  · rintro ⟨v, hv, h1, h2⟩
    refine ⟨v, hv, ?_⟩
    rw [Bool.and_eq_true, beq_iff_eq, beq_iff_eq]
    exact ⟨h1, h2⟩

theorem hasVote_eq_false_of_empty (db : DB) (uid cid sid : Nat)
    (hc : inSpot db.clips cid sid = true)
    (h : userSpotVotes db uid sid = []) : hasVote db.votes cid uid = false := by
  by_contra hcon
  rw [Bool.not_eq_false, hasVote_iff_exists] at hcon
  obtain ⟨v, hv, h1, h2⟩ := hcon
  have hp : votePred db.clips uid sid v = true := by
    unfold votePred
    rw [Bool.and_eq_true, beq_iff_eq]
    exact ⟨h2, by rw [h1]; exact hc⟩
  have : v ∈ userSpotVotes db uid sid := List.mem_filter.mpr ⟨hv, hp⟩
  rw [h] at this
  cases this

theorem currentCount_insertVoteRaw (db : DB) (cid uid : Nat) (c : Clip)
    (h : findClip db.clips cid = some c) :
    currentCount (insertVoteRaw db cid uid) cid = some (c.vote_count.getD 0 + 1) := by
  unfold currentCount
  rw [insertVoteRaw_clips, findClip_updateClipCount_self, h]
  rfl

theorem currentCount_deleteVoteById (db : DB) (vid : Nat) (v : Vote) (c : Clip)
    (hfind : db.votes.find? (fun w => w.id == vid) = some v)
    (hc : findClip db.clips v.clip_id = some c) :
    currentCount (deleteVoteById db vid) v.clip_id =
      some (max (c.vote_count.getD 0 - 1) 0) := by
  unfold currentCount
  rw [deleteVoteById_clips db vid v hfind, findClip_updateClipCount_self, hc]
  rfl

theorem currentCount_deleteVoteById_ne (db : DB) (vid cid : Nat) (v : Vote)
    (hfind : db.votes.find? (fun w => w.id == vid) = some v)
    (hne : cid ≠ v.clip_id) :
    currentCount (deleteVoteById db vid) cid = currentCount db cid := by
  unfold currentCount
  rw [deleteVoteById_clips db vid v hfind, findClip_updateClipCount_ne _ _ _ _ hne]

/-! Branch equations for cast_vote, one per control path of the RPC. -/

theorem cast_vote_not_authenticated (db : DB) (target : Nat) :
    cast_vote db none target = .error .notAuthenticated := rfl

theorem cast_vote_invalid_clip (db : DB) (uid target : Nat)
    (h : findClip db.clips target = none) :
    cast_vote db (some uid) target = .error .invalidClip := by
  unfold cast_vote
  simp only [h]

theorem cast_vote_added (db : DB) (uid target : Nat) (tc : Clip)
    (hfc : findClip db.clips target = some tc)
    (hev : findExistingVote db uid tc.spot_id = none) :
    cast_vote db (some uid) target =
      .ok (insertVoteOnConflictDoNothing db target uid,
        ⟨"added", target,
          currentCount (insertVoteOnConflictDoNothing db target uid) target⟩) := by
  unfold cast_vote
  simp only [hfc, hev]

theorem cast_vote_removed (db : DB) (uid target : Nat) (tc : Clip) (ev : Vote)
    (hfc : findClip db.clips target = some tc)
    (hev : findExistingVote db uid tc.spot_id = some ev)
    (heq : ev.clip_id = target) :
    cast_vote db (some uid) target =
      .ok (deleteVoteById db ev.id,
        ⟨"removed", target, currentCount (deleteVoteById db ev.id) target⟩) := by
  unfold cast_vote
  simp only [hfc, hev, heq, beq_self_eq_true, if_true]

theorem cast_vote_moved (db : DB) (uid target : Nat) (tc : Clip) (ev : Vote)
    (hfc : findClip db.clips target = some tc)
    (hev : findExistingVote db uid tc.spot_id = some ev)
    (hne : ev.clip_id ≠ target) :
    cast_vote db (some uid) target =
      .ok (insertVoteOnConflictDoNothing (deleteVoteById db ev.id) target uid,
        ⟨"moved", target,
          currentCount (insertVoteOnConflictDoNothing (deleteVoteById db ev.id) target uid)
            target⟩) := by
  unfold cast_vote
  simp only [hfc, hev, beq_false_of_ne hne, Bool.false_eq_true, if_false]

theorem castVoteStep_ok (db db' : DB) (au : Option Nat) (target : Nat)
    (r : CastVoteResult) (h : cast_vote db au target = .ok (db', r)) :
    castVoteStep db (au, target) = db' := by
  unfold castVoteStep
  rw [h]

theorem castVoteStep_err (db : DB) (au : Option Nat) (target : Nat) (e : VoteError)
    (h : cast_vote db au target = .error e) :
    castVoteStep db (au, target) = db := by
  unfold castVoteStep
  rw [h]

theorem userSpotVotes_deleteVoteById_le (db : DB) (vid u t : Nat) :
    (userSpotVotes (deleteVoteById db vid) u t).length ≤
      (userSpotVotes db u t).length := by
  cases hfind : db.votes.find? (fun w => w.id == vid) with
  | none => rw [deleteVoteById_of_none db vid hfind]
  | some v =>
    rw [userSpotVotes_deleteVoteById db vid v u t hfind]
    exact List.length_filter_le _ _

theorem userSpotVotes_insertOnConflict_le (db : DB) (cid uid u t : Nat) :
    (userSpotVotes (insertVoteOnConflictDoNothing db cid uid) u t).length ≤
      (userSpotVotes db u t).length + 1 := by
  unfold insertVoteOnConflictDoNothing
  split
  · exact Nat.le_succ _
  · rw [userSpotVotes_insertVoteRaw, List.length_append]
    have hle : (List.filter (votePred db.clips u t) [⟨db.nextVoteId, cid, uid⟩]).length ≤ 1 :=
      List.length_filter_le _ _
    omega

theorem userSpotVotes_insertOnConflict_of_empty (db : DB) (cid uid u t : Nat)
    (h : userSpotVotes db u t = []) :
    (userSpotVotes (insertVoteOnConflictDoNothing db cid uid) u t).length ≤ 1 := by
  have hle := userSpotVotes_insertOnConflict_le db cid uid u t
  rw [h] at hle
  simpa using hle

theorem votePred_true_elim (clips : List Clip) (uid sid : Nat) (v : Vote) (tc : Clip)
    (hfc : findClip clips v.clip_id = some tc)
    (hp : votePred clips uid sid v = true) : v.user_id = uid ∧ tc.spot_id = sid := by
  unfold votePred inSpot at hp
  rw [hfc, Bool.and_eq_true, beq_iff_eq, beq_iff_eq] at hp
  exact hp

theorem find?_vote_id_isSome (votes : List Vote) (ev : Vote) (h : ev ∈ votes) :
    ∃ w, votes.find? (fun v => v.id == ev.id) = some w := by
  have hs : (votes.find? (fun v => v.id == ev.id)).isSome :=
    List.find?_isSome.mpr ⟨ev, h, beq_self_eq_true ev.id⟩
  exact Option.isSome_iff_exists.mp hs

theorem findClip_deleteVoteById_spot (db : DB) (vid cid : Nat) (c : Clip)
    (h : findClip db.clips cid = some c) :
    ∃ c', findClip (deleteVoteById db vid).clips cid = some c' ∧
      c'.spot_id = c.spot_id := by
  cases hfind : db.votes.find? (fun w => w.id == vid) with
  | none =>
    rw [deleteVoteById_of_none db vid hfind]
    exact ⟨c, h, rfl⟩
  | some v =>
    rw [deleteVoteById_clips db vid v hfind, findClip_updateClipCount, h,
      Option.map_some']
    refine ⟨_, rfl, ?_⟩
    split <;> rfl

theorem castVoteStep_preserves (db : DB) (u t : Nat) (req : Option Nat × Nat)
    (h : (userSpotVotes db u t).length ≤ 1) :
    (userSpotVotes (castVoteStep db req) u t).length ≤ 1 := by
  obtain ⟨au, target⟩ := req
  cases au with
  | none =>
    rw [castVoteStep_err db none target _ (cast_vote_not_authenticated db target)]
    exact h
  | some uid =>
    cases hfc : findClip db.clips target with
    | none =>
      rw [castVoteStep_err db _ target _ (cast_vote_invalid_clip db uid target hfc)]
      exact h
    | some tc =>
      cases hev : findExistingVote db uid tc.spot_id with
      | none =>
        rw [castVoteStep_ok _ _ _ _ _ (cast_vote_added db uid target tc hfc hev)]
        by_cases hq : u = uid ∧ tc.spot_id = t
        · obtain ⟨hq1, hq2⟩ := hq
          subst hq1
          subst hq2
          exact userSpotVotes_insertOnConflict_of_empty db target u u tc.spot_id
            ((findExistingVote_eq_none_iff db u tc.spot_id).mp hev)
        · unfold insertVoteOnConflictDoNothing
          split
          · exact h
          · rw [userSpotVotes_insertVoteRaw, List.length_append]
            have hp : votePred db.clips u t ⟨db.nextVoteId, target, uid⟩ = false := by
              by_contra hcon
              rw [Bool.not_eq_false] at hcon
              obtain ⟨h1, h2⟩ := votePred_true_elim db.clips u t _ tc hfc hcon
              exact hq ⟨h1.symm, h2⟩
            simpa [hp] using h
      | some ev =>
        by_cases heq : ev.clip_id = target
        · rw [castVoteStep_ok _ _ _ _ _ (cast_vote_removed db uid target tc ev hfc hev heq)]
          exact le_trans (userSpotVotes_deleteVoteById_le db ev.id u t) h
        · rw [castVoteStep_ok _ _ _ _ _ (cast_vote_moved db uid target tc ev hfc hev heq)]
          by_cases hq : u = uid ∧ tc.spot_id = t
          · obtain ⟨hq1, hq2⟩ := hq
            subst hq1
            subst hq2
            have hmem := findExistingVote_mem db u tc.spot_id ev hev
            have hsing : userSpotVotes db u tc.spot_id = [ev] :=
              eq_singleton_of_length_le_one h hmem
            have hevvotes : ev ∈ db.votes := (List.mem_filter.mp hmem).1
            obtain ⟨w, hw⟩ := find?_vote_id_isSome db.votes ev hevvotes
            have hdel : userSpotVotes (deleteVoteById db ev.id) u tc.spot_id = [] := by
              rw [userSpotVotes_deleteVoteById db ev.id w u tc.spot_id hw, hsing]
              simp
            exact userSpotVotes_insertOnConflict_of_empty _ target u u tc.spot_id hdel
          · have hd := userSpotVotes_deleteVoteById_le db ev.id u t
            unfold insertVoteOnConflictDoNothing
            split
            · exact le_trans hd h
            · rw [userSpotVotes_insertVoteRaw, List.length_append]
              obtain ⟨tc', hfc', hsp⟩ := findClip_deleteVoteById_spot db ev.id target tc hfc
              have hp : votePred (deleteVoteById db ev.id).clips u t
                  ⟨(deleteVoteById db ev.id).nextVoteId, target, uid⟩ = false := by
                by_contra hcon
                rw [Bool.not_eq_false] at hcon
                obtain ⟨h1, h2⟩ :=
                  votePred_true_elim (deleteVoteById db ev.id).clips u t _ tc' hfc' hcon
                exact hq ⟨h1.symm, by rw [← hsp]; exact h2⟩
              simpa [hp] using le_trans hd h

theorem runCastVotes_preserves (db : DB) (u t : Nat) (reqs : List (Option Nat × Nat))
    (h : (userSpotVotes db u t).length ≤ 1) :
    (userSpotVotes (runCastVotes db reqs) u t).length ≤ 1 := by
  induction reqs generalizing db with
  | nil => exact h
  | cons r rest ih => exact ih (castVoteStep db r) (castVoteStep_preserves db u t r h)

theorem find?_eq_of_filter_singleton {α : Type} (p : α → Bool) (l : List α) (x : α)
    (h : l.filter p = [x]) : l.find? p = some x := by
  induction l with
  | nil => simp at h
  | cons a rest ih =>
    by_cases hpa : p a = true
    · rw [List.filter_cons_of_pos hpa] at h
      rw [List.cons.injEq] at h
      rw [List.find?_cons_of_pos rest hpa, h.1]
    · rw [List.filter_cons_of_neg (by simpa using hpa)] at h
      rw [List.find?_cons_of_neg rest (by simpa using hpa)]
      exact ih h

theorem find?_id_eq_of_nodup (votes : List Vote) (ev : Vote) (hmem : ev ∈ votes)
    (hnd : (votes.map Vote.id).Nodup) :
    votes.find? (fun v => v.id == ev.id) = some ev := by
  induction votes with
  | nil => cases hmem
  | cons a rest ih =>
    rw [List.map_cons, List.nodup_cons] at hnd
    obtain ⟨hna, hnd1⟩ := hnd
    by_cases hae : a = ev
    · subst hae
      exact List.find?_cons_of_pos rest (beq_self_eq_true a.id)
    · have hev1 : ev ∈ rest := by
        cases hmem with
        | head => exact absurd rfl hae
        | tail _ hm => exact hm
      have hid : a.id ≠ ev.id := by
        intro hcontra
        exact hna (hcontra ▸ List.mem_map_of_mem Vote.id hev1)
      rw [List.find?_cons_of_neg rest (by simpa using hid)]
      exact ih hev1 hnd1

theorem findClip_deleteVoteById_ne (db : DB) (vid cid : Nat) (v : Vote) (c : Clip)
    (hfound : db.votes.find? (fun w => w.id == vid) = some v)
    (hne : cid ≠ v.clip_id) (h : findClip db.clips cid = some c) :
    findClip (deleteVoteById db vid).clips cid = some c := by
  rw [deleteVoteById_clips db vid v hfound, findClip_updateClipCount_ne _ _ _ _ hne]
  exact h

theorem inSpot_of_findClip (clips : List Clip) (cid : Nat) (tc : Clip)
    (h : findClip clips cid = some tc) : inSpot clips cid tc.spot_id = true := by
  unfold inSpot
  rw [h]
  exact beq_self_eq_true tc.spot_id

/-- C1: for an authenticated caller and an existing target clip, cast_vote
performs exactly one of three cases, determined by the caller's existing vote in
the target clip's spot: no vote anywhere on the spot inserts a vote on the
target and returns the action added; a vote on the target itself deletes that
vote and returns removed; a vote on a different clip of the spot deletes the old
vote, inserts one on the target and returns moved.  In every case the returned
new_vote_count is the target clip's vote_count re-read after the mutation and
the vote-count projection. -/
theorem cast_vote_three_cases (db : DB) (uid target : Nat) (tc : Clip)
    (hfc : findClip db.clips target = some tc)
    (hnd : (db.votes.map Vote.id).Nodup)
    (hle : (userSpotVotes db uid tc.spot_id).length ≤ 1) :
    ∃ db' r, cast_vote db (some uid) target = Except.ok (db', r) ∧
      r.voted_clip_id = target ∧
      r.new_vote_count = currentCount db' target ∧
      (userSpotVotes db uid tc.spot_id = [] →
        r.action = "added" ∧
        db'.votes = db.votes ++ [⟨db.nextVoteId, target, uid⟩] ∧
        currentCount db' target = some (tc.vote_count.getD 0 + 1)) ∧
      (∀ ev ∈ userSpotVotes db uid tc.spot_id, ev.clip_id = target →
        r.action = "removed" ∧
        userSpotVotes db' uid tc.spot_id = [] ∧
        currentCount db' target = some (max (tc.vote_count.getD 0 - 1) 0)) ∧
      (∀ ev ∈ userSpotVotes db uid tc.spot_id, ev.clip_id ≠ target →
        r.action = "moved" ∧
        userSpotVotes db' uid tc.spot_id = [⟨db.nextVoteId, target, uid⟩] ∧
        currentCount db' target = some (tc.vote_count.getD 0 + 1)) := by
  cases hev : findExistingVote db uid tc.spot_id with
  | none =>
    have hempty : userSpotVotes db uid tc.spot_id = [] :=
      (findExistingVote_eq_none_iff db uid tc.spot_id).mp hev
    have hnov : hasVote db.votes target uid = false :=
      hasVote_eq_false_of_empty db uid target tc.spot_id
        (inSpot_of_findClip _ _ _ hfc) hempty
    have hins : insertVoteOnConflictDoNothing db target uid =
        insertVoteRaw db target uid := by
      unfold insertVoteOnConflictDoNothing
      rw [hnov]
      rfl
    refine ⟨_, _, cast_vote_added db uid target tc hfc hev, rfl, rfl, ?_, ?_, ?_⟩
    · intro _
      refine ⟨rfl, ?_, ?_⟩
      · rw [hins, insertVoteRaw_votes]
      · rw [hins, currentCount_insertVoteRaw db target uid tc hfc]
    · intro ev hmem _
      rw [hempty] at hmem
      cases hmem
    · intro ev hmem _
      rw [hempty] at hmem
      cases hmem
  | some ev0 =>
    have hmem0 := findExistingVote_mem db uid tc.spot_id ev0 hev
    have hsing : userSpotVotes db uid tc.spot_id = [ev0] :=
      eq_singleton_of_length_le_one hle hmem0
    have hv0 : ev0 ∈ db.votes := (List.mem_filter.mp hmem0).1
    have hfind0 : db.votes.find? (fun v => v.id == ev0.id) = some ev0 :=
      find?_id_eq_of_nodup db.votes ev0 hv0 hnd
    have hdel : userSpotVotes (deleteVoteById db ev0.id) uid tc.spot_id = [] := by
      rw [userSpotVotes_deleteVoteById db ev0.id ev0 uid tc.spot_id hfind0, hsing]
      simp
    by_cases heq : ev0.clip_id = target
    · refine ⟨_, _, cast_vote_removed db uid target tc ev0 hfc hev heq, rfl, rfl,
        ?_, ?_, ?_⟩
      · intro habs
        rw [hsing] at habs
        exact (List.cons_ne_nil _ _ habs).elim
      · intro ev hmem hevt
        refine ⟨rfl, hdel, ?_⟩
        have hcc := currentCount_deleteVoteById db ev0.id ev0 tc hfind0
          (by rw [heq]; exact hfc)
        rw [heq] at hcc
        exact hcc
      · intro ev hmem hne
        rw [hsing] at hmem
        cases hmem with
        | head => exact absurd heq hne
        | tail _ h2 => cases h2
    · have hfc1 : findClip (deleteVoteById db ev0.id).clips target = some tc :=
        findClip_deleteVoteById_ne db ev0.id target ev0 tc hfind0 (Ne.symm heq) hfc
      have hnov1 : hasVote (deleteVoteById db ev0.id).votes target uid = false :=
        hasVote_eq_false_of_empty _ uid target tc.spot_id
          (inSpot_of_findClip _ _ _ hfc1) hdel
      have hins1 : insertVoteOnConflictDoNothing (deleteVoteById db ev0.id) target uid =
          insertVoteRaw (deleteVoteById db ev0.id) target uid := by
        unfold insertVoteOnConflictDoNothing
        rw [hnov1]
        rfl
      refine ⟨_, _, cast_vote_moved db uid target tc ev0 hfc hev heq, rfl, rfl,
        ?_, ?_, ?_⟩
      · intro habs
        rw [hsing] at habs
        exact (List.cons_ne_nil _ _ habs).elim
      · intro ev hmem hevt
        rw [hsing] at hmem
        cases hmem with
        | head => exact absurd hevt heq
        | tail _ h2 => cases h2
      · intro ev hmem hne
        refine ⟨rfl, ?_, ?_⟩
        · rw [hins1, userSpotVotes_insertVoteRaw, hdel]
          have hpnew : votePred (deleteVoteById db ev0.id).clips uid tc.spot_id
              ⟨(deleteVoteById db ev0.id).nextVoteId, target, uid⟩ = true := by
            unfold votePred
            rw [Bool.and_eq_true, beq_iff_eq]
            exact ⟨rfl, inSpot_of_findClip _ _ _ hfc1⟩
          rw [deleteVoteById_nextVoteId] at hpnew
          simp [hpnew, deleteVoteById_nextVoteId]
        · rw [hins1, currentCount_insertVoteRaw _ target uid tc hfc1]

/-! Characterization of the ownership resolver's ORDER BY ... LIMIT 1. -/

theorem not_clipBefore_iff (a b : Clip) :
    ¬ clipBefore b a ↔
      (countKey b ≤ countKey a ∧
        (countKey b = countKey a → a.created_at ≤ b.created_at)) := by
  unfold clipBefore
  push_neg
  rfl

theorem clipBefore_irrefl (a : Clip) : ¬ clipBefore a a := by
  rw [not_clipBefore_iff]
  exact ⟨le_refl _, fun _ => le_refl _⟩

theorem clipBefore_asymm {a b : Clip} (h : clipBefore b a) : ¬ clipBefore a b := by
  rw [not_clipBefore_iff]
  unfold clipBefore at h
  rcases h with h | ⟨he, hcr⟩
  · exact ⟨le_of_lt h, fun heq => absurd h (by rw [heq]; exact lt_irrefl _)⟩
  · exact ⟨he.ge, fun _ => le_of_lt hcr⟩

theorem not_clipBefore_trans {a b c : Clip} (h1 : ¬ clipBefore b a)
    (h2 : ¬ clipBefore c b) : ¬ clipBefore c a := by
  rw [not_clipBefore_iff] at h1 h2 ⊢
  obtain ⟨h1k, h1c⟩ := h1
  obtain ⟨h2k, h2c⟩ := h2
  refine ⟨le_trans h2k h1k, ?_⟩
  intro heq
  have hba : countKey b = countKey a := le_antisymm h1k (heq ▸ h2k)
  have hcb : countKey c = countKey b := heq.trans hba.symm
  exact le_trans (h1c hba) (h2c hcb)

theorem best1_eq_none (l : List Clip) (h : best1 l = none) : l = [] := by
  cases l with
  | nil => rfl
  | cons c rest =>
    unfold best1 at h
    cases hb : best1 rest with
    | none =>
      simp only [hb] at h
      exact Option.noConfusion h
    | some b =>
      simp only [hb] at h
      by_cases hba : clipBefore b c
      · rw [if_pos hba] at h; exact Option.noConfusion h
      · rw [if_neg hba] at h; exact Option.noConfusion h

theorem best1_mem (l : List Clip) (c : Clip) (h : best1 l = some c) : c ∈ l := by
  induction l generalizing c with
  | nil => cases h
  | cons a rest ih =>
    unfold best1 at h
    cases hb : best1 rest with
    | none =>
      simp only [hb, Option.some.injEq] at h
      rw [← h]
      exact List.mem_cons_self a rest
    | some b =>
      simp only [hb] at h
      by_cases hba : clipBefore b a
      · rw [if_pos hba, Option.some.injEq] at h
        rw [← h]
        exact List.mem_cons_of_mem a (ih b hb)
      · rw [if_neg hba, Option.some.injEq] at h
        rw [← h]
        exact List.mem_cons_self a rest

theorem best1_not_before (l : List Clip) (c : Clip) (h : best1 l = some c) :
    ∀ d ∈ l, ¬ clipBefore d c := by
  induction l generalizing c with
  | nil => intro d hd; cases hd
  | cons a rest ih =>
    intro d hd
    unfold best1 at h
    cases hb : best1 rest with
    | none =>
      have hrest := best1_eq_none rest hb
      simp only [hb, Option.some.injEq] at h
      cases hd with
      | head => rw [← h]; exact clipBefore_irrefl a
      | tail _ hd2 => rw [hrest] at hd2; cases hd2
    | some b =>
      simp only [hb] at h
      by_cases hba : clipBefore b a
      · rw [if_pos hba, Option.some.injEq] at h
        subst h
        cases hd with
        | head => exact clipBefore_asymm hba
        | tail _ hd2 => exact ih b hb d hd2
      · rw [if_neg hba, Option.some.injEq] at h
        subst h
        cases hd with
        | head => exact clipBefore_irrefl a
        | tail _ hd2 => exact not_clipBefore_trans hba (ih b hb d hd2)

theorem findSpot_recalc (db : DB) (sid : Nat) :
    findSpot (recalc_spot_owner db sid).spots sid =
      (findSpot db.spots sid).map
        (fun s =>
          { s with
            owner_user_id := (bestClip db.clips sid).map (fun c => c.user_id) }) := by
  unfold findSpot recalc_spot_owner
  dsimp only
  rw [List.find?_map]
  have hfg : ((fun s : Spot => s.id == sid) ∘
      (fun s => if s.id == sid then
        { s with owner_user_id := (bestClip db.clips sid).map (fun c => c.user_id) }
      else s)) = fun s : Spot => s.id == sid := by
    funext s
    show ((if s.id == sid then
      { s with owner_user_id := (bestClip db.clips sid).map (fun c => c.user_id) }
      else s).id == sid) = (s.id == sid)
    split <;> rfl
  rw [hfg]
  cases hf : List.find? (fun s : Spot => s.id == sid) db.spots with
  | none => rfl
  | some s =>
    have hs := List.find?_some hf
    simp only at hs
    simp [hs]
    intro h1
    exact absurd (beq_iff_eq.mp hs) h1

theorem mem_spotClips (clips : List Clip) (sid : Nat) (d : Clip) :
    d ∈ spotClips clips sid ↔ (d ∈ clips ∧ d.spot_id = sid) := by
  unfold spotClips
  rw [List.mem_filter, beq_iff_eq]

/-- C3: recalcOwner for one spot sets owner_user_id to the uploader of the
clip of that spot with the maximum vote_count, breaking vote-count ties by
the earliest created_at; with zero clips it sets owner_user_id to NULL; and
when every clip of the spot has vote_count 0 and one clip is strictly
earliest-created, that clip's uploader becomes the owner. -/
theorem recalc_spot_owner_correct (db : DB) (sid : Nat) (s : Spot)
    (hs : findSpot db.spots sid = some s) :
    ∃ s', findSpot (recalc_spot_owner db sid).spots sid = some s' ∧
      (spotClips db.clips sid = [] → s'.owner_user_id = none) ∧
      (spotClips db.clips sid ≠ [] →
        ∃ c ∈ spotClips db.clips sid,
          s'.owner_user_id = some c.user_id ∧
          ∀ d ∈ spotClips db.clips sid,
            countKey d ≤ countKey c ∧
              (countKey d = countKey c → c.created_at ≤ d.created_at)) ∧
      ((∀ d ∈ spotClips db.clips sid, d.vote_count = some 0) →
        ∀ e ∈ spotClips db.clips sid,
          (∀ d ∈ spotClips db.clips sid, d ≠ e → e.created_at < d.created_at) →
          s'.owner_user_id = some e.user_id) := by
  refine ⟨{ s with owner_user_id := (bestClip db.clips sid).map (fun c => c.user_id) },
    by rw [findSpot_recalc, hs]; rfl, ?_, ?_, ?_⟩
  · intro hemp
    show (bestClip db.clips sid).map (fun c => c.user_id) = none
    unfold bestClip
    rw [hemp]
    rfl
  · intro hne
    cases hb : bestClip db.clips sid with
    | none =>
      unfold bestClip at hb
      exact absurd (best1_eq_none _ hb) hne
    | some c =>
      unfold bestClip at hb
      refine ⟨c, best1_mem _ c hb, rfl, ?_⟩
      intro d hd
      have hnb := best1_not_before _ c hb d hd
      rw [not_clipBefore_iff] at hnb
      exact hnb
  · intro hz e he hearliest
    obtain ⟨c, hbc⟩ : ∃ c, bestClip db.clips sid = some c := by
      cases hb : bestClip db.clips sid with
      | none =>
        unfold bestClip at hb
        rw [best1_eq_none _ hb] at he
        cases he
      | some c => exact ⟨c, rfl⟩
    have hbc1 := hbc
    unfold bestClip at hbc1
    have hcmem := best1_mem _ c hbc1
    by_cases hce : c = e
    · show (bestClip db.clips sid).map (fun c => c.user_id) = some e.user_id
      rw [hbc, hce]
      rfl
    · exfalso
      have h1 := best1_not_before _ c hbc1 e he
      rw [not_clipBefore_iff] at h1
      have hkey : countKey e = countKey c := by
        have hzc := hz c hcmem
        have hze := hz e he
        unfold countKey
        rw [hzc, hze]
      have hcr : c.created_at ≤ e.created_at := h1.2 hkey
      have hlt : e.created_at < c.created_at := hearliest c hcmem hce
      omega

/-! The toggle law for cast_vote. -/

/-- C4 counterexample: when the voter already holds a vote on the clip, the
first of two consecutive identical cast_vote calls returns removed, not added,
so the toggle law does not hold unconditionally. -/
theorem cast_vote_toggle_counterexample :
    (cast_vote dbB (some 7) 10).toOption.map (fun p => p.2.action) = some "removed" ∧
    "removed" ≠ "added" := ⟨by decide, by decide⟩

/-- C4 (amended): starting from a state where the caller has no vote on any
clip of the target's spot, the stored count is a non-negative n, and all vote
ids are below the fresh-id source, cast_vote twice on the same clip returns
added then removed, the ledger returns to its initial rows, and the clip's
projected vote_count returns to its initial value. -/
theorem cast_vote_toggle_law (db : DB) (uid target : Nat) (tc : Clip) (n : Int)
    (hfc : findClip db.clips target = some tc)
    (hcount : tc.vote_count = some n) (hn : 0 ≤ n)
    (hempty : userSpotVotes db uid tc.spot_id = [])
    (hid : ∀ v ∈ db.votes, v.id < db.nextVoteId) :
    ∃ db1 r1 db2 r2,
      cast_vote db (some uid) target = Except.ok (db1, r1) ∧
      cast_vote db1 (some uid) target = Except.ok (db2, r2) ∧
      r1.action = "added" ∧ r2.action = "removed" ∧
      r1.new_vote_count = some (n + 1) ∧
      r2.new_vote_count = some n ∧
      currentCount db2 target = currentCount db target ∧
      db2.votes = db.votes := by
  have hev : findExistingVote db uid tc.spot_id = none :=
    (findExistingVote_eq_none_iff db uid tc.spot_id).mpr hempty
  have hnov : hasVote db.votes target uid = false :=
    hasVote_eq_false_of_empty db uid target tc.spot_id (inSpot_of_findClip _ _ _ hfc)
      hempty
  have hins : insertVoteOnConflictDoNothing db target uid = insertVoteRaw db target uid := by
    unfold insertVoteOnConflictDoNothing
    rw [hnov]
    rfl
  have hfirst : cast_vote db (some uid) target =
      Except.ok (insertVoteRaw db target uid,
        ⟨"added", target, currentCount (insertVoteRaw db target uid) target⟩) := by
    rw [cast_vote_added db uid target tc hfc hev, hins]
  have hcc1 : currentCount (insertVoteRaw db target uid) target = some (n + 1) := by
    rw [currentCount_insertVoteRaw db target uid tc hfc, hcount]
    rfl
  have hfc1 : findClip (insertVoteRaw db target uid).clips target =
      some { tc with vote_count := some (n + 1) } := by
    rw [insertVoteRaw_clips, findClip_updateClipCount_self, hfc]
    simp only [Option.map_some']
    rw [hcount]
    rfl
  have hev2 : findExistingVote (insertVoteRaw db target uid) uid tc.spot_id =
      some ⟨db.nextVoteId, target, uid⟩ := by
    unfold findExistingVote
    rw [insertVoteRaw_votes, insertVoteRaw_clips, votePred_updateClipCount_funext,
      List.find?_append]
    have h1 : db.votes.find? (votePred db.clips uid tc.spot_id) = none := hev
    rw [h1]
    have hp : votePred db.clips uid tc.spot_id ⟨db.nextVoteId, target, uid⟩ = true := by
      unfold votePred
      rw [Bool.and_eq_true, beq_iff_eq]
      exact ⟨rfl, inSpot_of_findClip _ _ _ hfc⟩
    rw [List.find?_cons_of_pos _ hp]
    rfl
  have hev2' : findExistingVote (insertVoteRaw db target uid) uid
      ({ tc with vote_count := some (n + 1) } : Clip).spot_id =
      some ⟨db.nextVoteId, target, uid⟩ := hev2
  have hsecond := cast_vote_removed (insertVoteRaw db target uid) uid target
    { tc with vote_count := some (n + 1) } ⟨db.nextVoteId, target, uid⟩ hfc1 hev2' rfl
  have hfind2 : (insertVoteRaw db target uid).votes.find?
      (fun w => w.id == db.nextVoteId) = some ⟨db.nextVoteId, target, uid⟩ := by
    rw [insertVoteRaw_votes, List.find?_append]
    have h1 : db.votes.find? (fun w => w.id == db.nextVoteId) = none := by
      rw [List.find?_eq_none]
      intro v hv
      simp only [beq_iff_eq]
      exact Nat.ne_of_lt (hid v hv)
    rw [h1]
    simp
  have hvotes2 : (deleteVoteById (insertVoteRaw db target uid) db.nextVoteId).votes =
      db.votes := by
    rw [deleteVoteById_votes _ _ _ hfind2, insertVoteRaw_votes, List.filter_append]
    have h1 : db.votes.filter (fun w => w.id != db.nextVoteId) = db.votes := by
      rw [List.filter_eq_self]
      intro v hv
      simp only [bne_iff_ne, ne_eq]
      exact Nat.ne_of_lt (hid v hv)
    have h2 : List.filter (fun w : Vote => w.id != db.nextVoteId)
        [⟨db.nextVoteId, target, uid⟩] = [] := by
      simp
    rw [h1, h2, List.append_nil]
  have hcc2 : currentCount (deleteVoteById (insertVoteRaw db target uid) db.nextVoteId)
      target = some n := by
    have := currentCount_deleteVoteById (insertVoteRaw db target uid) db.nextVoteId
      ⟨db.nextVoteId, target, uid⟩ { tc with vote_count := some (n + 1) } hfind2 hfc1
    simp only at this
    rw [this]
    congr 1
    simp only [Option.getD_some]
    omega
  refine ⟨_, _, _, _, hfirst, hsecond, rfl, rfl, ?_, ?_, ?_, ?_⟩
  · exact hcc1
  · show currentCount (deleteVoteById (insertVoteRaw db target uid) db.nextVoteId) target =
      some n
    exact hcc2
  · show currentCount (deleteVoteById (insertVoteRaw db target uid) db.nextVoteId) target =
      currentCount db target
    rw [hcc2]
    unfold currentCount
    rw [hfc]
    show some n = tc.vote_count
    rw [hcount]
  · exact hvotes2

/-! The vote-count projector at the ledger-mutation level, and the silent
handling of duplicate inserts inside cast_vote. -/

/-- C5: a ledger insert raises exactly the target clip's vote_count by 1
(reading an unset count as 0) and leaves every other clip's count unchanged; a
ledger delete lowers it by 1 but floors the result at 0; in both directions the
projected count stays a non-negative integer when it starts non-negative (or
unset). -/
theorem vote_count_projection (db : DB) (cid uid : Nat) (c : Clip)
    (hc : findClip db.clips cid = some c) (hpos : 0 ≤ c.vote_count.getD 0) :
    (currentCount (insertVoteRaw db cid uid) cid = some (c.vote_count.getD 0 + 1) ∧
      (∀ cid', cid' ≠ cid →
        currentCount (insertVoteRaw db cid uid) cid' = currentCount db cid') ∧
      0 ≤ (currentCount (insertVoteRaw db cid uid) cid).getD 0) ∧
    (∀ vid v, db.votes.find? (fun w => w.id == vid) = some v → v.clip_id = cid →
      currentCount (deleteVoteById db vid) cid =
        some (max (c.vote_count.getD 0 - 1) 0) ∧
      (∀ cid', cid' ≠ cid →
        currentCount (deleteVoteById db vid) cid' = currentCount db cid') ∧
      0 ≤ (currentCount (deleteVoteById db vid) cid).getD 0) := by
  constructor
  · refine ⟨currentCount_insertVoteRaw db cid uid c hc, ?_, ?_⟩
    · intro cid' hne
      unfold currentCount
      rw [insertVoteRaw_clips, findClip_updateClipCount_ne _ _ _ _ hne]
    · rw [currentCount_insertVoteRaw db cid uid c hc]
      simp only [Option.getD_some]
      omega
  · intro vid v hfind hclip
    have hc1 : findClip db.clips v.clip_id = some c := by rw [hclip]; exact hc
    have h1 := currentCount_deleteVoteById db vid v c hfind hc1
    rw [hclip] at h1
    refine ⟨h1, ?_, ?_⟩
    · intro cid' hne
      unfold currentCount
      rw [deleteVoteById_clips db vid v hfind,
        findClip_updateClipCount_ne _ _ _ _ (by rw [hclip]; exact hne)]
    · rw [h1]
      simp only [Option.getD_some]
      exact le_max_right _ _

/-- C10: with an authenticated caller and an existing target clip, cast_vote
always succeeds with one of the actions added, removed or moved and the target's
current count — no duplicate-vote failure is ever surfaced — and when the moved
branch's insert hits an already-existing (clip, voter) row, the ON CONFLICT DO
NOTHING clause skips the insert: the ledger stays exactly the post-delete rows
while the call still reports moved. -/
theorem cast_vote_duplicate_silently_skipped (db : DB) (uid target : Nat) (tc : Clip)
    (hfc : findClip db.clips target = some tc)
    (hnd : (db.votes.map Vote.id).Nodup) :
    ∃ db' r, cast_vote db (some uid) target = Except.ok (db', r) ∧
      (r.action = "added" ∨ r.action = "removed" ∨ r.action = "moved") ∧
      r.new_vote_count = currentCount db' target ∧
      (∀ ev, findExistingVote db uid tc.spot_id = some ev → ev.clip_id ≠ target →
        hasVote db.votes target uid = true →
        r.action = "moved" ∧ db'.votes = (deleteVoteById db ev.id).votes) := by
  cases hev : findExistingVote db uid tc.spot_id with
  | none =>
    refine ⟨_, _, cast_vote_added db uid target tc hfc hev, Or.inl rfl, rfl, ?_⟩
    intro ev h0 _ _
    exact Option.noConfusion h0
  | some ev0 =>
    have hev0mem : ev0 ∈ db.votes :=
      (List.mem_filter.mp (findExistingVote_mem db uid tc.spot_id ev0 hev)).1
    by_cases heq : ev0.clip_id = target
    · refine ⟨_, _, cast_vote_removed db uid target tc ev0 hfc hev heq,
        Or.inr (Or.inl rfl), rfl, ?_⟩
      intro ev h0 hne _
      injection h0 with h0
      subst h0
      exact absurd heq hne
    · refine ⟨_, _, cast_vote_moved db uid target tc ev0 hfc hev heq,
        Or.inr (Or.inr rfl), rfl, ?_⟩
      intro ev h0 hne hdup
      injection h0 with h0
      subst h0
      refine ⟨rfl, ?_⟩
      obtain ⟨v, hvmem, hvclip, hvuser⟩ := (hasVote_iff_exists db.votes target uid).mp hdup
      have hvne : v.id ≠ ev0.id := by
        intro hcontra
        have hveq : v = ev0 :=
          List.inj_on_of_nodup_map hnd hvmem hev0mem hcontra
        rw [hveq] at hvclip
        exact heq hvclip
      have hfind0 : db.votes.find? (fun w => w.id == ev0.id) = some ev0 :=
        find?_id_eq_of_nodup db.votes ev0 hev0mem hnd
      have hvmem1 : v ∈ (deleteVoteById db ev0.id).votes := by
        rw [deleteVoteById_votes db ev0.id ev0 hfind0]
        refine List.mem_filter.mpr ⟨hvmem, ?_⟩
        simp only [bne_iff_ne, ne_eq]
        exact hvne
      have hdup1 : hasVote (deleteVoteById db ev0.id).votes target uid = true :=
        (hasVote_iff_exists _ _ _).mpr ⟨v, hvmem1, hvclip, hvuser⟩
      show (insertVoteOnConflictDoNothing (deleteVoteById db ev0.id) target uid).votes = _
      unfold insertVoteOnConflictDoNothing
      rw [hdup1]
      rfl

/-! The one-vote-per-territory invariant over call sequences, and the write
paths to the ledger. -/

/-- C2: starting from any state in which user u holds at most one vote among
the clips of spot t, any finite sequence of cast_vote calls — by any callers,
authenticated or not, on valid or invalid clips — leaves u with at most one
vote among the clips of t. -/
theorem one_vote_per_territory_invariant (db : DB) (u t : Nat)
    (reqs : List (Option Nat × Nat))
    (h : (userSpotVotes db u t).length ≤ 1) :
    (userSpotVotes (runCastVotes db reqs) u t).length ≤ 1 :=
  runCastVotes_preserves db u t reqs h

/-- C2 witness: the invariant holds concretely for user 7 on spot 1 across a
sequence containing add, move, remove, unauthenticated and invalid-clip calls. -/
theorem one_vote_per_territory_invariant_witness :
    (userSpotVotes dbA 7 1).length ≤ 1 ∧
    (userSpotVotes
      (runCastVotes dbA
        [(some 7, 10), (some 7, 11), (some 7, 11), (none, 10), (some 9, 10),
          (some 7, 99)]) 7 1).length ≤ 1 :=
  ⟨by decide, one_vote_per_territory_invariant dbA 7 1 _ (by decide)⟩

/-- C6 counterexample: toggleVote is an exposed vote mutation that bypasses
cast_vote; called on a second clip of a spot the user already voted in —
starting from a state reached through cast_vote itself — it reports success and
leaves the user with two live votes in that one spot. -/
theorem toggleVote_violates_territory_invariant :
    (userSpotVotes dbA 7 1).length ≤ 1 ∧
    (toggleVote (castVoteStep dbA (some 7, 10)) (some 7) 11).2.success = true ∧
    (userSpotVotes (toggleVote (castVoteStep dbA (some 7, 10)) (some 7) 11).1
      7 1).length = 2 :=
  ⟨by decide, by decide, by decide⟩

/-- C6 (amended): every single cast_vote call preserves the at-most-one-vote
per (voter, spot) bound, but cast_vote is not the sole exposed write path to
the ledger: toggleVote in src/utils/voting.ts writes votes directly with only a
per-clip check, and from an invariant-respecting state it can produce a second
vote by the same user in the same spot. -/
theorem cast_vote_safe_but_not_sole_write_path :
    (∀ db u t req, (userSpotVotes db u t).length ≤ 1 →
      (userSpotVotes (castVoteStep db req) u t).length ≤ 1) ∧
    (∃ db uid clipId, (∀ u t, (userSpotVotes db u t).length ≤ 1) ∧
      (toggleVote db (some uid) clipId).2.success = true ∧
      2 ≤ (userSpotVotes (toggleVote db (some uid) clipId).1 uid 1).length) := by
  constructor
  · intro db u t req h
    exact castVoteStep_preserves db u t req h
  · refine ⟨castVoteStep dbA (some 7, 10), 7, 11, ?_, by decide, by decide⟩
    intro u t
    calc (userSpotVotes (castVoteStep dbA (some 7, 10)) u t).length
        ≤ (castVoteStep dbA (some 7, 10)).votes.length := List.length_filter_le _ _
      _ ≤ 1 := by decide

/-- C6 witness: the cast_vote half of the amended statement, applied to a
concrete request. -/
theorem cast_vote_safe_but_not_sole_write_path_witness :
    (userSpotVotes dbA 7 1).length ≤ 1 ∧
    (userSpotVotes (castVoteStep dbA (some 7, 10)) 7 1).length ≤ 1 :=
  ⟨by decide, cast_vote_safe_but_not_sole_write_path.1 dbA 7 1 (some 7, 10) (by decide)⟩

/-- C1 witness: with no prior vote, a concrete cast_vote call lands in the
added case. -/
theorem cast_vote_three_cases_witness :
    ∃ db' r, cast_vote dbA (some 7) 10 = Except.ok (db', r) ∧ r.action = "added" := by
  obtain ⟨db', r, heqn, hvc, hcnt, hadded, hrem, hmov⟩ :=
    cast_vote_three_cases dbA 7 10 ⟨10, 1, 2, some 0, 0⟩ (by decide) (by decide)
      (by decide)
  obtain ⟨ha, _, _⟩ := hadded (by decide)
  exact ⟨db', r, heqn, ha⟩

/-- C3 witness: on a concrete spot whose two clips both have zero votes, the
recomputed owner is the uploader of the strictly earliest-created clip. -/
theorem recalc_spot_owner_correct_witness :
    ∃ s', findSpot (recalc_spot_owner dbA 1).spots 1 = some s' ∧
      s'.owner_user_id = some 2 := by
  obtain ⟨s', hfind, hemp, hnon, hzero⟩ :=
    recalc_spot_owner_correct dbA 1 ⟨1, none⟩ (by decide)
  refine ⟨s', hfind, ?_⟩
  exact hzero (by decide) ⟨10, 1, 2, some 0, 0⟩ (by decide) (by decide)

/-- C4 witness: the toggle law at a concrete state with no prior vote. -/
theorem cast_vote_toggle_law_witness :
    ∃ db1 r1 db2 r2,
      cast_vote dbA (some 7) 10 = Except.ok (db1, r1) ∧
      cast_vote db1 (some 7) 10 = Except.ok (db2, r2) ∧
      r1.action = "added" ∧ r2.action = "removed" ∧ db2.votes = dbA.votes := by
  obtain ⟨db1, r1, db2, r2, h1, h2, ha, hr, hc1, hc2, hcc, hv⟩ :=
    cast_vote_toggle_law dbA 7 10 ⟨10, 1, 2, some 0, 0⟩ 0 (by decide) (by decide)
      (by decide) (by decide) (by intro v hv; simp [dbA] at hv)
  exact ⟨db1, r1, db2, r2, h1, h2, ha, hr, hv⟩

/-- C5 witness: the projector applied to a concrete clip with count 0. -/
theorem vote_count_projection_witness :
    currentCount (insertVoteRaw dbA 10 7) 10 = some 1 := by
  obtain ⟨⟨hi, _, _⟩, _⟩ :=
    vote_count_projection dbA 10 7 ⟨10, 1, 2, some 0, 0⟩ (by decide) (by decide)
  rw [hi]
  decide

/-- C10 witness: at a corrupted state where user 7 already holds a vote on the
target clip, the moved branch's conflicting insert is skipped and the call
still reports moved. -/
theorem cast_vote_duplicate_silently_skipped_witness :
    ∃ db' r, cast_vote dbC (some 7) 11 = Except.ok (db', r) ∧ r.action = "moved" ∧
      db'.votes = (deleteVoteById dbC 100).votes := by
  obtain ⟨db', r, heqn, hact, hcnt, hmoved⟩ :=
    cast_vote_duplicate_silently_skipped dbC 7 11 ⟨11, 1, 3, some 1, 5⟩ (by decide)
      (by decide)
  obtain ⟨hm, hv⟩ := hmoved ⟨100, 10, 7⟩ (by decide) (by decide) (by decide)
  exact ⟨db', r, heqn, hm, hv⟩

/-! The user leaderboard. -/

/-- C7 counterexample: with two single-spot owners tying on count, the profile
with a NULL username sorts first, not last — its COALESCE fallback key (the
display name) precedes the other profile's username. -/
theorem get_leaderboard_null_handle_not_last :
    (get_leaderboard profilesA spotsA 10).map (fun e => e.profile.username) =
      [none, some "z"] ∧
    (get_leaderboard profilesA spotsA 10).map (fun e => e.spots_owned) = [1, 1] := by
  have hle : lbKey (⟨1, none, some "a", none⟩ : Profile) ≤
      lbKey (⟨2, some "z", none, none⟩ : Profile) := by
    show ("a" : String) ≤ "z"
    exact String.le_iff_toList_le.mpr (by decide)
  constructor <;>
    · unfold get_leaderboard leaderboardRows profilesA spotsA
      norm_num [spots_owned, List.filterMap, List.insertionSort, List.orderedInsert,
        lbLE, hle]

/-- C7 (amended): get_leaderboard returns a prefix of length at most
limit_count of a list sorted by owned-spot count descending and then by the
fallback key COALESCE(username, display_name, id) ascending, whose members are
exactly the profiles owning at least one spot, each paired with its owned-spot
count.  Profiles with a NULL username are ordered by their fallback key, not
necessarily last. -/
theorem get_leaderboard_spec (profiles : List Profile) (spots : List Spot)
    (limit_count : Nat) :
    ∃ L, get_leaderboard profiles spots limit_count = L.take limit_count ∧
      List.Sorted lbLE L ∧
      ∀ e : LBEntry, e ∈ L ↔
        (e.profile ∈ profiles ∧ e.spots_owned = spots_owned spots e.profile.id ∧
          0 < e.spots_owned) := by
  refine ⟨(leaderboardRows profiles spots).insertionSort lbLE, rfl,
    List.sorted_insertionSort lbLE _, ?_⟩
  intro e
  unfold leaderboardRows
  rw [List.mem_insertionSort, List.mem_filterMap]
  constructor
  · rintro ⟨p, hp, hf⟩
    dsimp only at hf
    by_cases hn : spots_owned spots p.id > 0
    · rw [if_pos hn] at hf
      injection hf with hf
      rw [← hf]
      exact ⟨hp, rfl, hn⟩
    · rw [if_neg hn] at hf
      exact Option.noConfusion hf
  · rintro ⟨hp, hcount, hpos⟩
    refine ⟨e.profile, hp, ?_⟩
    dsimp only
    have hn : spots_owned spots e.profile.id > 0 := hcount ▸ hpos
    rw [if_pos hn, ← hcount]

/-! Mob membership and invite codes. -/

/-- C8: joinMob fails with the invalid-code error when no mob carries the code
and with the already-member error when the caller re-joins their own mob; but
because the stored constraint is UNIQUE (mob_id, user_id) rather than a
per-user constraint, a user already in mob 1 successfully joins mob 2 and ends
up with two memberships — exercising the failing input of the one-team-per-user
contract. -/
theorem joinMob_second_mob_accepted :
    joinMob mobsA membersA (some 7) "CCCCCC" =
      Except.error JoinError.invalidInviteCode ∧
    joinMob mobsA membersA (some 7) "AAAAAA" =
      Except.error JoinError.alreadyMember ∧
    joinMob mobsA membersA (some 7) "BBBBBB" =
      Except.ok ([⟨1, 7⟩, ⟨2, 7⟩], ⟨2, "BBBBBB"⟩) ∧
    (userMemberships [⟨1, 7⟩, ⟨2, 7⟩] 7).length = 2 :=
  ⟨by rfl, by rfl, by rfl, by rfl⟩

/-- C9 counterexample: the generate_invite_code of complete_schema_fixed.sql
performs no uniqueness check, so with a candidate stream whose first candidate
equals an already-stored code the function returns that stored code. -/
theorem generate_invite_code_returns_stored_code :
    generate_invite_code (fun _ => "ABC123") = "ABC123" ∧
    "ABC123" ∈ ["ABC123"] ∧ ("ABC123" : String).length = 6 :=
  ⟨rfl, by decide, by decide⟩

/-- C9 (amended): both versions return a 6-character code; the collision-checked
loop of missing_functions_and_tables.sql returns, when it terminates within its
fuel, a code no existing mob uses, and it does terminate as soon as some
candidate within the fuel window is fresh; the unchecked version of
complete_schema_fixed.sql returns the first candidate with no such guarantee. -/
theorem generate_invite_code_checked_spec (existing : List String)
    (rand : Nat → String) (i fuel : Nat) (hlen : ∀ j, (rand j).length = 6) :
    (∀ code, generate_invite_code_checked existing rand i fuel = some code →
      code.length = 6 ∧ code ∉ existing) ∧
    ((∃ j, i ≤ j ∧ j < i + fuel ∧ rand j ∉ existing) →
      ∃ code, generate_invite_code_checked existing rand i fuel = some code) ∧
    (generate_invite_code rand).length = 6 := by
  refine ⟨?_, ?_, hlen 0⟩
  · induction fuel generalizing i with
    | zero => intro code h; exact Option.noConfusion h
    | succ fuel ih =>
      intro code h
      unfold generate_invite_code_checked at h
      by_cases hc : existing.contains (rand i) = true
      · rw [if_pos hc] at h
        exact ih (i + 1) code h
      · rw [if_neg hc] at h
        injection h with h
        rw [← h]
        refine ⟨hlen i, fun hmem => hc ?_⟩
        exact List.elem_iff.mpr hmem
  · induction fuel generalizing i with
    | zero =>
      rintro ⟨j, hij, hlt, _⟩
      omega
    | succ fuel ih =>
      rintro ⟨j, hij, hlt, hnot⟩
      unfold generate_invite_code_checked
      by_cases hc : existing.contains (rand i) = true
      · rw [if_pos hc]
        apply ih (i + 1)
        have hne : i ≠ j := by
          intro he
          exact hnot (he ▸ List.elem_iff.mp hc)
        exact ⟨j, by omega, by omega, hnot⟩
      · exact ⟨rand i, by rw [if_neg hc]⟩

/-- C9 witness: the checked loop, fed a stream whose first candidate collides,
returns the second, fresh candidate. -/
theorem generate_invite_code_checked_spec_witness :
    ∃ code, generate_invite_code_checked ["ABC123"] randA 0 2 = some code ∧
      code.length = 6 ∧ code ∉ ["ABC123"] := by
  obtain ⟨hsound, hterm, _⟩ :=
    generate_invite_code_checked_spec ["ABC123"] randA 0 2
      (by intro j; unfold randA; split <;> decide)
  obtain ⟨code, hcode⟩ := hterm ⟨1, by omega, by omega, by decide⟩
  obtain ⟨hc6, hcnot⟩ := hsound code hcode
  exact ⟨code, hcode, hc6, hcnot⟩

/-- C7 witness: the amended leaderboard characterization applied to the
concrete profiles and spots. -/
theorem get_leaderboard_spec_witness :
    ∃ L, get_leaderboard profilesA spotsA 10 = L.take 10 ∧ List.Sorted lbLE L :=
  match get_leaderboard_spec profilesA spotsA 10 with
  | ⟨L, hL, hs, _⟩ => ⟨L, hL, hs⟩
